import Mathlib

/-!
Verification of the group lifecycle management core of keep-core:
the DKG fault filters and message filtering (`pkg/beacon/relay/gjkr`
member filtering code) and the group selection / expiration algorithm
of RFC 6 (`docs/rfc/rfc-6-group-expiration-minimal-specification.adoc`).

The fault-filter code (`InactiveMemberFilter`, `DisqualifiedMemberFilter`,
`IsSenderAccepted`) is embedded directly from the Go source.  The `Group`
type's own methods (`OperatingMemberIDs`, `MarkMemberAsInactive`,
`MarkMemberAsDisqualified`, `IsSenderAccepted`) are only called, not
defined, in the available source, so they are modelled from the spec's
data model (members fixed; the two fault sets grow monotonically;
operating members are `members − inactiveMembers − disqualifiedMembers`).
The registry has no executable source; it is modelled from the RFC-6
"Group status verification" algorithm.
-/

namespace KeepCore

/-- `MemberIndex` is a positive integer unique within one group; we model it
as `Nat`. -/
abbrev MemberIndex := Nat

/-- Modelled from the spec: the Group record (source `Group` type is not in
the available source files).  `members` is fixed at formation; the two fault
sets are sets of member indices that only grow. -/
structure Group where
  members : List MemberIndex
  inactiveMembers : List MemberIndex
  disqualifiedMembers : List MemberIndex
deriving DecidableEq, Repr

/-- Modelled from the spec: `operatingMembers` is the derived view
`members − inactiveMembers − disqualifiedMembers`, recomputed on demand. -/
def Group.OperatingMemberIDs (g : Group) : List MemberIndex :=
  g.members.filter
    (fun id => !g.inactiveMembers.contains id && !g.disqualifiedMembers.contains id)

/-- Modelled from the spec: `MarkMemberAsInactive` adds the index to the
`inactiveMembers` set (set semantics: adding an element already present is a
no-op; the set only grows). -/
def Group.MarkMemberAsInactive (g : Group) (memberID : MemberIndex) : Group :=
  if g.inactiveMembers.contains memberID then g
  else { g with inactiveMembers := g.inactiveMembers ++ [memberID] }

/-- Modelled from the spec: `MarkMemberAsDisqualified` adds the index to the
`disqualifiedMembers` set (set semantics, monotone growth). -/
def Group.MarkMemberAsDisqualified (g : Group) (memberID : MemberIndex) : Group :=
  if g.disqualifiedMembers.contains memberID then g
  else { g with disqualifiedMembers := g.disqualifiedMembers ++ [memberID] }

/-- Modelled from the spec: the `MessageFiltering` capability backed by a
Group.  `IsSenderAccepted(senderID)` is true iff `senderID` is in `members`
and in neither fault set.  A pure read: no side effects, no errors. -/
def Group.IsSenderAccepted (g : Group) (senderID : MemberIndex) : Bool :=
  g.members.contains senderID
    && !g.inactiveMembers.contains senderID
    && !g.disqualifiedMembers.contains senderID

/-- `InactiveMemberFilter` from the source: the observing member's own index,
the reference to the Group (embedded by value: the Go code holds a pointer),
and the phase-local list of positively observed active members. -/
structure InactiveMemberFilter where
  selfMemberID : MemberIndex
  group : Group
  phaseActiveMembers : List MemberIndex
deriving DecidableEq, Repr

/-- `NewInactiveMemberFilter` from the source: fresh filter with an empty
phase-local observation list. -/
def NewInactiveMemberFilter (selfMemberIndex : MemberIndex) (group : Group) :
    InactiveMemberFilter :=
  { selfMemberID := selfMemberIndex, group := group, phaseActiveMembers := [] }

/-- `MarkMemberAsActive` from the source: appends the index to the
phase-local `phaseActiveMembers` list; nothing else is written. -/
def InactiveMemberFilter.MarkMemberAsActive
    (mf : InactiveMemberFilter) (memberID : MemberIndex) : InactiveMemberFilter :=
  { mf with phaseActiveMembers := mf.phaseActiveMembers ++ [memberID] }

/-- The `isActive` closure inside `FlushInactiveMembers` from the source:
the observer's own index is always considered active; otherwise the
phase-local observation list is scanned. -/
def InactiveMemberFilter.isActive
    (mf : InactiveMemberFilter) (id : MemberIndex) : Bool :=
  if id == mf.selfMemberID then true
  else mf.phaseActiveMembers.contains id

/-- The loop of `FlushInactiveMembers` from the source: iterate over the
snapshot of operating member ids, marking every one not observed active as
inactive in the Group. -/
def InactiveMemberFilter.flushLoop
    (mf : InactiveMemberFilter) (ops : List MemberIndex) (g : Group) : Group :=
  match ops with
  | [] => g
  | id :: rest =>
      InactiveMemberFilter.flushLoop mf rest
        (if !(mf.isActive id) then g.MarkMemberAsInactive id else g)

/-- `FlushInactiveMembers` from the source: the range expression
`mf.group.OperatingMemberIDs()` is evaluated once, before any marking, and
the loop writes into the Group; the embedding returns the updated Group. -/
def InactiveMemberFilter.FlushInactiveMembers (mf : InactiveMemberFilter) : Group :=
  mf.flushLoop mf.group.OperatingMemberIDs mf.group

/-- `DisqualifiedMemberFilter` from the source. -/
structure DisqualifiedMemberFilter where
  selfMemberID : MemberIndex
  group : Group
  phaseDisqualifiedMembers : List MemberIndex
deriving DecidableEq, Repr

/-- `NewDisqualifiedMemberFilter` from the source. -/
def NewDisqualifiedMemberFilter (selfMemberIndex : MemberIndex) (group : Group) :
    DisqualifiedMemberFilter :=
  { selfMemberID := selfMemberIndex, group := group,
    phaseDisqualifiedMembers := [] }

/-- `MarkMemberAsDisqualified` (filter method) from the source: appends the
index to the phase-local `phaseDisqualifiedMembers` list. -/
def DisqualifiedMemberFilter.MarkMemberAsDisqualified
    (mf : DisqualifiedMemberFilter) (memberID : MemberIndex) :
    DisqualifiedMemberFilter :=
  { mf with
    phaseDisqualifiedMembers := mf.phaseDisqualifiedMembers ++ [memberID] }

/-- The `isDisqualified` closure inside `FlushDisqualifiedMembers` from the
source: the observer's own index can never be disqualified; otherwise the
phase-local observation list is scanned. -/
def DisqualifiedMemberFilter.isDisqualified
    (mf : DisqualifiedMemberFilter) (id : MemberIndex) : Bool :=
  if id == mf.selfMemberID then false
  else mf.phaseDisqualifiedMembers.contains id

/-- The loop of `FlushDisqualifiedMembers` from the source. -/
def DisqualifiedMemberFilter.flushLoop
    (mf : DisqualifiedMemberFilter) (ops : List MemberIndex) (g : Group) : Group :=
  match ops with
  | [] => g
  | id :: rest =>
      DisqualifiedMemberFilter.flushLoop mf rest
        (if mf.isDisqualified id then g.MarkMemberAsDisqualified id else g)

/-- `FlushDisqualifiedMembers` from the source. -/
def DisqualifiedMemberFilter.FlushDisqualifiedMembers
    (mf : DisqualifiedMemberFilter) : Group :=
  mf.flushLoop mf.group.OperatingMemberIDs mf.group

/-- `ProtocolMessage` from the source, reduced to the one datum the
filtering code reads: the protocol-level sender identifier. -/
structure ProtocolMessage where
  senderID : MemberIndex
deriving DecidableEq, Repr

/-- `IsMessageFromSelf` from the source. -/
def IsMessageFromSelf (memberIndex : MemberIndex) (message : ProtocolMessage) :
    Bool :=
  if message.senderID == memberIndex then true else false

/-- The free function `IsSenderAccepted` from the source, specialised to the
Group-backed implementation of the `MessageFiltering` capability. -/
def IsSenderAcceptedMsg (g : Group) (message : ProtocolMessage) : Bool :=
  g.IsSenderAccepted message.senderID

/-- A sequence of `MarkMemberAsActive` calls applied in order. -/
def InactiveMemberFilter.markAll
    (mf : InactiveMemberFilter) (ids : List MemberIndex) : InactiveMemberFilter :=
  ids.foldl InactiveMemberFilter.MarkMemberAsActive mf

/-- A sequence of `MarkMemberAsDisqualified` calls applied in order. -/
def DisqualifiedMemberFilter.markAll
    (mf : DisqualifiedMemberFilter) (ids : List MemberIndex) :
    DisqualifiedMemberFilter :=
  ids.foldl DisqualifiedMemberFilter.MarkMemberAsDisqualified mf

/-- One flush within a run: a fresh filter (owned by `selfMemberID`, holding
the phase's accumulated marks) is flushed into the current Group. -/
inductive FilterOp where
  | flushInactive (selfMemberID : MemberIndex) (marks : List MemberIndex)
  | flushDisqualified (selfMemberID : MemberIndex) (marks : List MemberIndex)
deriving DecidableEq, Repr

/-- Apply one flush operation to the Group. -/
def FilterOp.apply (g : Group) : FilterOp → Group
  | FilterOp.flushInactive s ms =>
      InactiveMemberFilter.FlushInactiveMembers ⟨s, g, ms⟩
  | FilterOp.flushDisqualified s ms =>
      DisqualifiedMemberFilter.FlushDisqualifiedMembers ⟨s, g, ms⟩

/-- Run a sequence of flush operations (one run of the protocol). -/
def runFlushes (g : Group) (ops : List FilterOp) : Group :=
  ops.foldl FilterOp.apply g

/-- State of a Formation Agreement per RFC-6: `Active` or `Expired`. -/
inductive GroupState where
  | Active
  | Expired
deriving DecidableEq, Repr

/-- Formation Agreement per RFC-6: identifier, members, registration time
(block height), timeout (in blocks) and current state. -/
structure FormationAgreement where
  id : Nat
  members : List MemberIndex
  registrationTime : Nat
  timeout : Nat
  state : GroupState
deriving DecidableEq, Repr

/-- Group Registry per RFC-6: active groups list, active groups counter,
active groups threshold and expired groups list. -/
structure GroupRegistry where
  activeGroupList : List FormationAgreement
  activeGroupsCounter : Nat
  activeGroupsThreshold : Nat
  expiredGroupList : List FormationAgreement
deriving DecidableEq, Repr

/-- A random draw from the active groups list, abstracted as an arbitrary
natural number reduced modulo the list length; `none` on an empty list. -/
def pickFrom (r : GroupRegistry) (n : Nat) : Option FormationAgreement :=
  r.activeGroupList[n % r.activeGroupList.length]?

/-- The expiration step of RFC-6 "Group status verification": set the
agreement's status to expired, move it from the active groups list to the
expired groups list, and decrease the active group counter by one. -/
def expireAt (r : GroupRegistry) (i : Nat) : GroupRegistry :=
  match r.activeGroupList[i]? with
  | none => r
  | some a =>
      { r with
        activeGroupList := r.activeGroupList.eraseIdx i,
        activeGroupsCounter := r.activeGroupsCounter - 1,
        expiredGroupList :=
          { a with state := GroupState.Expired } :: r.expiredGroupList }

/-- The selection loop of RFC-6 "Group status verification", modelled from
the RFC (the registry has no executable source in the repository).  The
random draws are abstracted by the stream `f` (`f k` is the `k`-th draw,
reduced modulo the list length).  If the number of active groups is below
the threshold, a random agreement is returned as-is with no expiration
check; otherwise the random candidate is verified: if the current block
time is larger than its registration time plus its timeout it is expired
(moved to the expired list) and the loop restarts, else it is returned.
The loop is fuelled; `fuel` at least the active-list length is exact, since
every non-returning iteration removes one element and fuel can run out only
on an empty list, where the result `(none, r)` agrees with the algorithm. -/
def selectLoopFuel (t : Nat) (f : Nat → Nat) :
    Nat → Nat → GroupRegistry → Option FormationAgreement × GroupRegistry
  | 0, _, r => (none, r)
  | fuel + 1, k, r =>
      if r.activeGroupsCounter < r.activeGroupsThreshold then
        (pickFrom r (f k), r)
      else
        match r.activeGroupList[f k % r.activeGroupList.length]? with
        | none => (none, r)
        | some cand =>
            if cand.registrationTime + cand.timeout < t then
              selectLoopFuel t f fuel (k + 1)
                (expireAt r (f k % r.activeGroupList.length))
            else
              (some cand, r)

/-- Selection, entered with exactly enough fuel: one unit per active group. -/
def selectGroup (t : Nat) (f : Nat → Nat) (k : Nat) (r : GroupRegistry) :
    Option FormationAgreement × GroupRegistry :=
  selectLoopFuel t f r.activeGroupList.length k r

/-- The registry invariant: the counter equals the active list's length,
every agreement on the active list has state `Active`, and every agreement
on the expired list has state `Expired` (hence no agreement is in both
lists: its `state` field matches the list holding it). -/
def RegistryWF (r : GroupRegistry) : Prop :=
  r.activeGroupsCounter = r.activeGroupList.length ∧
    (∀ a ∈ r.activeGroupList, a.state = GroupState.Active) ∧
    (∀ a ∈ r.expiredGroupList, a.state = GroupState.Expired)

-- Basic membership lemmas about the modelled Group operations.

theorem Group.mem_markInactive (g : Group) (i x : MemberIndex) :
    x ∈ (g.MarkMemberAsInactive i).inactiveMembers ↔
      x ∈ g.inactiveMembers ∨ x = i := by
  by_cases h : i ∈ g.inactiveMembers
  · have hc : g.inactiveMembers.contains i = true := List.elem_iff.mpr h
    simp only [Group.MarkMemberAsInactive, hc, if_pos]
    constructor
    · exact Or.inl
    · rintro (hx | rfl)
      · exact hx
      · exact h
  · have hc : g.inactiveMembers.contains i = false := by
      simpa using h
    simp [Group.MarkMemberAsInactive, hc, h, List.mem_append]

theorem Group.mem_markDisqualified (g : Group) (i x : MemberIndex) :
    x ∈ (g.MarkMemberAsDisqualified i).disqualifiedMembers ↔
      x ∈ g.disqualifiedMembers ∨ x = i := by
  by_cases h : i ∈ g.disqualifiedMembers
  · have hc : g.disqualifiedMembers.contains i = true := List.elem_iff.mpr h
    simp only [Group.MarkMemberAsDisqualified, hc, if_pos]
    constructor
    · exact Or.inl
    · rintro (hx | rfl)
      · exact hx
      · exact h
  · have hc : g.disqualifiedMembers.contains i = false := by
      simpa using h
    simp [Group.MarkMemberAsDisqualified, hc, h, List.mem_append]

theorem Group.markInactive_members (g : Group) (i : MemberIndex) :
    (g.MarkMemberAsInactive i).members = g.members := by
  unfold Group.MarkMemberAsInactive
  split <;> rfl

theorem Group.markInactive_disqualified (g : Group) (i : MemberIndex) :
    (g.MarkMemberAsInactive i).disqualifiedMembers = g.disqualifiedMembers := by
  unfold Group.MarkMemberAsInactive
  split <;> rfl

theorem Group.markDisqualified_members (g : Group) (i : MemberIndex) :
    (g.MarkMemberAsDisqualified i).members = g.members := by
  unfold Group.MarkMemberAsDisqualified
  split <;> rfl

theorem Group.markDisqualified_inactive (g : Group) (i : MemberIndex) :
    (g.MarkMemberAsDisqualified i).inactiveMembers = g.inactiveMembers := by
  unfold Group.MarkMemberAsDisqualified
  split <;> rfl

/-- Membership in the derived operating view. -/
theorem Group.mem_operating (g : Group) (x : MemberIndex) :
    x ∈ g.OperatingMemberIDs ↔
      x ∈ g.members ∧ x ∉ g.inactiveMembers ∧ x ∉ g.disqualifiedMembers := by
  unfold Group.OperatingMemberIDs
  simp [List.mem_filter, and_assoc]

theorem InactiveMemberFilter.isActive_eq_false
    (mf : InactiveMemberFilter) (x : MemberIndex) :
    mf.isActive x = false ↔ x ≠ mf.selfMemberID ∧ x ∉ mf.phaseActiveMembers := by
  unfold InactiveMemberFilter.isActive
  by_cases h : x = mf.selfMemberID <;> simp [h]

theorem DisqualifiedMemberFilter.isDisqualified_eq_true
    (mf : DisqualifiedMemberFilter) (x : MemberIndex) :
    mf.isDisqualified x = true ↔
      x ≠ mf.selfMemberID ∧ x ∈ mf.phaseDisqualifiedMembers := by
  unfold DisqualifiedMemberFilter.isDisqualified
  by_cases h : x = mf.selfMemberID <;> simp [h]

theorem InactiveMemberFilter.mem_flushLoop
    (mf : InactiveMemberFilter) (ops : List MemberIndex) (g : Group)
    (x : MemberIndex) :
    x ∈ (mf.flushLoop ops g).inactiveMembers ↔
      x ∈ g.inactiveMembers ∨ (x ∈ ops ∧ mf.isActive x = false) := by
  induction ops generalizing g with
  | nil => simp [InactiveMemberFilter.flushLoop]
  | cons id rest ih =>
    cases ha : mf.isActive id with
    | true =>
      simp only [InactiveMemberFilter.flushLoop, ha, Bool.not_true,
        Bool.false_eq_true, if_false]
      rw [ih]
      constructor
      · rintro (hg | ⟨hr, hact⟩)
        · exact Or.inl hg
        · exact Or.inr ⟨List.mem_cons_of_mem _ hr, hact⟩
      · rintro (hg | ⟨hmem, hact⟩)
        · exact Or.inl hg
        · rcases List.mem_cons.mp hmem with rfl | hr
          · rw [ha] at hact; cases hact
          · exact Or.inr ⟨hr, hact⟩
    | false =>
      simp only [InactiveMemberFilter.flushLoop, ha, Bool.not_false, if_true]
      rw [ih]
      constructor
      · rintro (hg | ⟨hr, hact⟩)
        · rcases (Group.mem_markInactive g id x).mp hg with hg | rfl
          · exact Or.inl hg
          · exact Or.inr ⟨List.mem_cons_self _ _, ha⟩
        · exact Or.inr ⟨List.mem_cons_of_mem _ hr, hact⟩
      · rintro (hg | ⟨hmem, hact⟩)
        · exact Or.inl ((Group.mem_markInactive g id x).mpr (Or.inl hg))
        · rcases List.mem_cons.mp hmem with rfl | hr
          · exact Or.inl ((Group.mem_markInactive g x x).mpr (Or.inr rfl))
          · exact Or.inr ⟨hr, hact⟩

theorem DisqualifiedMemberFilter.mem_flushLoopD
    (mf : DisqualifiedMemberFilter) (ops : List MemberIndex) (g : Group)
    (x : MemberIndex) :
    x ∈ (mf.flushLoop ops g).disqualifiedMembers ↔
      x ∈ g.disqualifiedMembers ∨ (x ∈ ops ∧ mf.isDisqualified x = true) := by
  induction ops generalizing g with
  | nil => simp [DisqualifiedMemberFilter.flushLoop]
  | cons id rest ih =>
    cases ha : mf.isDisqualified id with
    | false =>
      simp only [DisqualifiedMemberFilter.flushLoop, ha, Bool.false_eq_true,
        if_false]
      rw [ih]
      constructor
      · rintro (hg | ⟨hr, hact⟩)
        · exact Or.inl hg
        · exact Or.inr ⟨List.mem_cons_of_mem _ hr, hact⟩
      · rintro (hg | ⟨hmem, hact⟩)
        · exact Or.inl hg
        · rcases List.mem_cons.mp hmem with rfl | hr
          · rw [ha] at hact; cases hact
          · exact Or.inr ⟨hr, hact⟩
    | true =>
      simp only [DisqualifiedMemberFilter.flushLoop, ha, if_true]
      rw [ih]
      constructor
      · rintro (hg | ⟨hr, hact⟩)
        · rcases (Group.mem_markDisqualified g id x).mp hg with hg | rfl
          · exact Or.inl hg
          · exact Or.inr ⟨List.mem_cons_self _ _, ha⟩
        · exact Or.inr ⟨List.mem_cons_of_mem _ hr, hact⟩
      · rintro (hg | ⟨hmem, hact⟩)
        · exact Or.inl ((Group.mem_markDisqualified g id x).mpr (Or.inl hg))
        · rcases List.mem_cons.mp hmem with rfl | hr
          · exact Or.inl ((Group.mem_markDisqualified g x x).mpr (Or.inr rfl))
          · exact Or.inr ⟨hr, hact⟩

theorem InactiveMemberFilter.flushLoop_members
    (mf : InactiveMemberFilter) (ops : List MemberIndex) (g : Group) :
    (mf.flushLoop ops g).members = g.members := by
  induction ops generalizing g with
  | nil => rfl
  | cons id rest ih =>
    simp only [InactiveMemberFilter.flushLoop]
    rw [ih]
    split <;> simp [Group.markInactive_members]

theorem InactiveMemberFilter.flushLoop_disqualified
    (mf : InactiveMemberFilter) (ops : List MemberIndex) (g : Group) :
    (mf.flushLoop ops g).disqualifiedMembers = g.disqualifiedMembers := by
  induction ops generalizing g with
  | nil => rfl
  | cons id rest ih =>
    simp only [InactiveMemberFilter.flushLoop]
    rw [ih]
    split <;> simp [Group.markInactive_disqualified]

theorem DisqualifiedMemberFilter.flushLoopD_members
    (mf : DisqualifiedMemberFilter) (ops : List MemberIndex) (g : Group) :
    (mf.flushLoop ops g).members = g.members := by
  induction ops generalizing g with
  | nil => rfl
  | cons id rest ih =>
    simp only [DisqualifiedMemberFilter.flushLoop]
    rw [ih]
    split <;> simp [Group.markDisqualified_members]

theorem DisqualifiedMemberFilter.flushLoop_inactive
    (mf : DisqualifiedMemberFilter) (ops : List MemberIndex) (g : Group) :
    (mf.flushLoop ops g).inactiveMembers = g.inactiveMembers := by
  induction ops generalizing g with
  | nil => rfl
  | cons id rest ih =>
    simp only [DisqualifiedMemberFilter.flushLoop]
    rw [ih]
    split <;> simp [Group.markDisqualified_inactive]

/-- C1: after `FlushInactiveMembers`, the Group's `inactiveMembers` has
gained exactly the member indices that were operating at flush time, differ
from the filter owner's `selfMemberID`, and were never passed to
`MarkMemberAsActive`; after `FlushDisqualifiedMembers`, `disqualifiedMembers`
has gained exactly the indices operating at flush time, different from the
owner, that were passed to `MarkMemberAsDisqualified` at least once. -/
theorem flush_gains_exactly
    (mfI : InactiveMemberFilter) (mfD : DisqualifiedMemberFilter)
    (x : MemberIndex) :
    (x ∈ mfI.FlushInactiveMembers.inactiveMembers ↔
        x ∈ mfI.group.inactiveMembers ∨
          (x ∈ mfI.group.OperatingMemberIDs ∧ x ≠ mfI.selfMemberID ∧
            x ∉ mfI.phaseActiveMembers)) ∧
      (x ∈ mfD.FlushDisqualifiedMembers.disqualifiedMembers ↔
        x ∈ mfD.group.disqualifiedMembers ∨
          (x ∈ mfD.group.OperatingMemberIDs ∧ x ≠ mfD.selfMemberID ∧
            x ∈ mfD.phaseDisqualifiedMembers)) := by
  constructor
  · rw [InactiveMemberFilter.FlushInactiveMembers,
      InactiveMemberFilter.mem_flushLoop,
      InactiveMemberFilter.isActive_eq_false]
  · rw [DisqualifiedMemberFilter.FlushDisqualifiedMembers,
      DisqualifiedMemberFilter.mem_flushLoopD,
      DisqualifiedMemberFilter.isDisqualified_eq_true]

theorem expireAt_eq (r : GroupRegistry) (i : Nat) (a : FormationAgreement)
    (h : r.activeGroupList[i]? = some a) :
    expireAt r i =
      { activeGroupList := r.activeGroupList.eraseIdx i,
        activeGroupsCounter := r.activeGroupsCounter - 1,
        activeGroupsThreshold := r.activeGroupsThreshold,
        expiredGroupList :=
          { a with state := GroupState.Expired } :: r.expiredGroupList } := by
  unfold expireAt
  rw [h]

theorem expireAt_threshold (r : GroupRegistry) (i : Nat) :
    (expireAt r i).activeGroupsThreshold = r.activeGroupsThreshold := by
  unfold expireAt
  split <;> rfl

theorem expireAt_active_subset (r : GroupRegistry) (i : Nat) :
    ∀ x ∈ (expireAt r i).activeGroupList, x ∈ r.activeGroupList := by
  unfold expireAt
  split
  · exact fun x hx => hx
  · exact fun x hx => (List.eraseIdx_sublist _ i).subset hx

theorem expireAt_length (r : GroupRegistry) (i : Nat) (a : FormationAgreement)
    (h : r.activeGroupList[i]? = some a) :
    (expireAt r i).activeGroupList.length + 1 = r.activeGroupList.length := by
  have hi : i < r.activeGroupList.length := (List.getElem?_eq_some.mp h).1
  rw [expireAt_eq r i a h]
  simp only [List.length_eraseIdx]
  simp only [hi, if_pos]
  omega

theorem pickFrom_nil (r : GroupRegistry) (h : r.activeGroupList = []) (n : Nat) :
    pickFrom r n = none := by
  unfold pickFrom
  rw [h]
  rfl

theorem selectGroup_below_aux (t : Nat) (f : Nat → Nat) (k : Nat)
    (r : GroupRegistry) (h : r.activeGroupsCounter < r.activeGroupsThreshold) :
    selectGroup t f k r = (pickFrom r (f k), r) := by
  unfold selectGroup
  cases hl : r.activeGroupList with
  | nil =>
    simp only [List.length_nil, selectLoopFuel]
    rw [pickFrom_nil r hl]
  | cons c cs =>
    simp only [List.length_cons, selectLoopFuel]
    simp [h]

theorem selectLoopFuel_le (t : Nat) (f : Nat → Nat) :
    ∀ fuel₁ fuel₂ k r, r.activeGroupList.length ≤ fuel₁ →
      r.activeGroupList.length ≤ fuel₂ →
      selectLoopFuel t f fuel₁ k r = selectLoopFuel t f fuel₂ k r := by
  intro fuel₁
  induction fuel₁ with
  | zero =>
    intro fuel₂ k r h1 h2
    have hl : r.activeGroupList = [] :=
      List.length_eq_zero.mp (Nat.le_zero.mp h1)
    cases fuel₂ with
    | zero => rfl
    | succ m =>
      simp only [selectLoopFuel]
      rw [pickFrom_nil r hl, hl]
      simp
  | succ n ih =>
    intro fuel₂ k r h1 h2
    cases fuel₂ with
    | zero =>
      have hl : r.activeGroupList = [] :=
        List.length_eq_zero.mp (Nat.le_zero.mp h2)
      simp only [selectLoopFuel]
      rw [pickFrom_nil r hl, hl]
      simp
    | succ m =>
      simp only [selectLoopFuel]
      by_cases hc : r.activeGroupsCounter < r.activeGroupsThreshold
      · simp [hc]
      · simp only [hc, if_false]
        cases hg : r.activeGroupList[f k % r.activeGroupList.length]? with
        | none => rfl
        | some cand =>
          by_cases ht : cand.registrationTime + cand.timeout < t
          · simp only [ht, if_pos]
            have hlen := expireAt_length r (f k % r.activeGroupList.length) cand hg
            exact ih m (k + 1) (expireAt r (f k % r.activeGroupList.length))
              (by omega) (by omega)
          · simp [ht]

theorem selectGroup_fuel_aux (t : Nat) (f : Nat → Nat) (k : Nat)
    (r : GroupRegistry) (fuel : Nat) (h : r.activeGroupList.length ≤ fuel) :
    selectLoopFuel t f fuel k r = selectGroup t f k r :=
  selectLoopFuel_le t f fuel r.activeGroupList.length k r h (Nat.le_refl _)

theorem selectLoopFuel_exhausts (t : Nat) (f : Nat → Nat) :
    ∀ fuel k r, r.activeGroupsThreshold = 0 →
      (∀ a ∈ r.activeGroupList, a.registrationTime + a.timeout < t) →
      r.activeGroupList.length ≤ fuel →
      (selectLoopFuel t f fuel k r).1 = none ∧
        (selectLoopFuel t f fuel k r).2.activeGroupList = [] := by
  intro fuel
  induction fuel with
  | zero =>
    intro k r h0 hexp hlen
    have hl : r.activeGroupList = [] :=
      List.length_eq_zero.mp (Nat.le_zero.mp hlen)
    exact ⟨rfl, hl⟩
  | succ n ih =>
    intro k r h0 hexp hlen
    have hc : ¬ r.activeGroupsCounter < r.activeGroupsThreshold := by
      rw [h0]
      exact Nat.not_lt_zero _
    simp only [selectLoopFuel, hc, if_false]
    cases hg : r.activeGroupList[f k % r.activeGroupList.length]? with
    | none =>
      have hl : r.activeGroupList = [] := by
        by_contra hne
        have hpos : 0 < r.activeGroupList.length := List.length_pos.mpr hne
        have hidx : f k % r.activeGroupList.length < r.activeGroupList.length :=
          Nat.mod_lt _ hpos
        rw [List.getElem?_eq_getElem hidx] at hg
        cases hg
      exact ⟨rfl, hl⟩
    | some cand =>
      have hcand : cand ∈ r.activeGroupList := by
        obtain ⟨hlt, hEq⟩ := List.getElem?_eq_some.mp hg
        exact hEq ▸ List.getElem_mem hlt
      have ht : cand.registrationTime + cand.timeout < t := hexp cand hcand
      simp only [ht, if_pos]
      have hlen2 := expireAt_length r (f k % r.activeGroupList.length) cand hg
      refine ih (k + 1) (expireAt r (f k % r.activeGroupList.length)) ?_ ?_ ?_
      · rw [expireAt_threshold, h0]
      · exact fun a ha => hexp a (expireAt_active_subset _ _ a ha)
      · omega

/-- C3 (amended): if the registry's `activeGroupsCounter` is strictly below
`activeGroupsThreshold` when Selection is invoked, the Selection operation
moves no Formation Agreement from the active list to the expired list and
flips no state — the registry is returned unchanged — and it returns a
random agreement from `activeGroupList` as-is, regardless of elapsed time.
(The RFC performs the expiration check whenever the number of active groups
is not *below* the threshold, so at `counter = threshold` a group can still
expire; the original "at or below" is refuted by the counterexample.) -/
theorem selection_below_threshold (t : Nat) (f : Nat → Nat) (k : Nat)
    (r : GroupRegistry) (h : r.activeGroupsCounter < r.activeGroupsThreshold) :
    selectGroup t f k r = (pickFrom r (f k), r) :=
  selectGroup_below_aux t f k r h

/-- C3 witness: a registry with one active group (registered at time 0 with
timeout 5) and threshold 2; Selection at time 100 — far past the timeout —
returns the group as-is and performs no expiration. -/
theorem selection_below_threshold_witness :
    selectGroup 100 (fun n => n) 0
        (⟨[⟨0, [1], 0, 5, GroupState.Active⟩], 1, 2, []⟩ : GroupRegistry) =
      (pickFrom (⟨[⟨0, [1], 0, 5, GroupState.Active⟩], 1, 2, []⟩ : GroupRegistry) 0,
        (⟨[⟨0, [1], 0, 5, GroupState.Active⟩], 1, 2, []⟩ : GroupRegistry)) :=
  selection_below_threshold 100 (fun n => n) 0
    (⟨[⟨0, [1], 0, 5, GroupState.Active⟩], 1, 2, []⟩ : GroupRegistry) (by decide)

/-- C3 counterexample: a registry with `activeGroupsCounter = 1` at (not
below) `activeGroupsThreshold = 1`, whose single group (registered at 500,
timeout 100) has expired by time 601.  The claim says no agreement is moved
in this regime; in fact Selection moves the group to the expired list. -/
theorem selection_at_threshold_expires_counterexample :
    (⟨[⟨0, [1, 2, 3], 500, 100, GroupState.Active⟩], 1, 1, []⟩ :
          GroupRegistry).activeGroupsCounter ≤
        (⟨[⟨0, [1, 2, 3], 500, 100, GroupState.Active⟩], 1, 1, []⟩ :
          GroupRegistry).activeGroupsThreshold ∧
      (selectGroup 601 (fun n => n) 0
          (⟨[⟨0, [1, 2, 3], 500, 100, GroupState.Active⟩], 1, 1, []⟩ :
            GroupRegistry)).2.expiredGroupList.length = 1 := by
  exact ⟨Nat.le_refl 1, rfl⟩

/-- C4: an expiration step (the only mutation Selection performs, taken only
when the current time exceeds the candidate's registration time plus its
timeout) decreases `activeGroupsCounter` by exactly 1, removes exactly the
candidate from `activeGroupList`, adds that same agreement — with `state`
set to `Expired` — to `expiredGroupList`, and preserves the invariant that
the counter equals the active list's length and each agreement's `state`
matches the list holding it (so no agreement is in both lists). -/
theorem expiration_step_correct (r : GroupRegistry) (i : Nat)
    (a : FormationAgreement) (hget : r.activeGroupList[i]? = some a)
    (hwf : RegistryWF r) :
    (expireAt r i).activeGroupsCounter + 1 = r.activeGroupsCounter ∧
      (expireAt r i).activeGroupList = r.activeGroupList.eraseIdx i ∧
      (expireAt r i).expiredGroupList =
        { a with state := GroupState.Expired } :: r.expiredGroupList ∧
      RegistryWF (expireAt r i) ∧
      (∀ x, x ∈ (expireAt r i).activeGroupList →
        x ∉ (expireAt r i).expiredGroupList) := by
  obtain ⟨hcnt, hact, hexp⟩ := hwf
  have hi : i < r.activeGroupList.length := (List.getElem?_eq_some.mp hget).1
  rw [expireAt_eq r i a hget]
  have hlen : (r.activeGroupList.eraseIdx i).length =
      r.activeGroupList.length - 1 := by
    simp only [List.length_eraseIdx, hi, if_pos]
  have hact' : ∀ x ∈ r.activeGroupList.eraseIdx i, x.state = GroupState.Active :=
    fun x hx => hact x ((List.eraseIdx_sublist _ i).subset hx)
  have hexp' : ∀ x ∈ ({ a with state := GroupState.Expired } :: r.expiredGroupList),
      x.state = GroupState.Expired := by
    intro x hx
    rcases List.mem_cons.mp hx with rfl | hx2
    · rfl
    · exact hexp x hx2
  refine ⟨by simp only []; omega, rfl, rfl, ⟨?_, hact', hexp'⟩, ?_⟩
  · simp only []
    omega
  · intro x hx hmem
    have h1 : x.state = GroupState.Active := hact' x hx
    have h2 : x.state = GroupState.Expired := hexp' x hmem
    rw [h1] at h2
    cases h2

/-- C4 witness: the expiration step applied to a concrete well-formed
registry with one active group. -/
theorem expiration_step_correct_witness :
    (expireAt (⟨[⟨0, [1, 2], 500, 100, GroupState.Active⟩], 1, 0, []⟩ :
        GroupRegistry) 0).activeGroupsCounter + 1 =
      (⟨[⟨0, [1, 2], 500, 100, GroupState.Active⟩], 1, 0, []⟩ :
        GroupRegistry).activeGroupsCounter := by
  have h := expiration_step_correct
    (⟨[⟨0, [1, 2], 500, 100, GroupState.Active⟩], 1, 0, []⟩ : GroupRegistry) 0
    ⟨0, [1, 2], 500, 100, GroupState.Active⟩ rfl
    ⟨rfl, by decide, by decide⟩
  exact h.1

/-- C5 (amended): the Selection loop terminates — `fuel` equal to the
active-list length is exact and any larger fuel computes the same result
(each non-returning iteration strictly shrinks `activeGroupList` by one) —
and once the counter falls strictly below the threshold the loop returns a
random agreement immediately; in the boundary case where
`activeGroupsThreshold` is 0 and every group has expired, Selection returns
the explicit `none` ("no eligible group") outcome with an emptied active
list, and on an empty registry it returns `none` with the registry
unchanged, rather than looping forever or raising an error.  (The original
"once the list's size reaches the threshold the loop returns" fails: at
size equal to the threshold the RFC still performs expiration checks, see
the counterexample.) -/
theorem selection_terminates (t : Nat) (f : Nat → Nat) (k : Nat)
    (r : GroupRegistry) :
    (∀ fuel, r.activeGroupList.length ≤ fuel →
        selectLoopFuel t f fuel k r = selectGroup t f k r) ∧
      (r.activeGroupsCounter < r.activeGroupsThreshold →
        selectGroup t f k r = (pickFrom r (f k), r)) ∧
      ((r.activeGroupsThreshold = 0 ∧
          ∀ a ∈ r.activeGroupList, a.registrationTime + a.timeout < t) →
        (selectGroup t f k r).1 = none ∧
          (selectGroup t f k r).2.activeGroupList = []) ∧
      (r.activeGroupList = [] → selectGroup t f k r = (none, r)) := by
  refine ⟨fun fuel h => selectGroup_fuel_aux t f k r fuel h,
    fun h => selectGroup_below_aux t f k r h, fun h => ?_, fun h => ?_⟩
  · exact selectLoopFuel_exhausts t f r.activeGroupList.length k r h.1 h.2
      (Nat.le_refl _)
  · unfold selectGroup
    rw [h]
    rfl

/-- C5 witness: with threshold 0 and a single group expired by time 100,
Selection reports the explicit "no eligible group" outcome. -/
theorem selection_terminates_witness :
    (selectGroup 100 (fun n => n) 0
        (⟨[⟨0, [1], 0, 10, GroupState.Active⟩], 1, 0, []⟩ :
          GroupRegistry)).1 = none ∧
      (selectGroup 100 (fun n => n) 0
        (⟨[⟨0, [1], 0, 10, GroupState.Active⟩], 1, 0, []⟩ :
          GroupRegistry)).2.activeGroupList = [] :=
  (selection_terminates 100 (fun n => n) 0
      (⟨[⟨0, [1], 0, 10, GroupState.Active⟩], 1, 0, []⟩ : GroupRegistry)).2.2.1
    ⟨rfl, by decide⟩

/-- C5 counterexample: a registry whose active list's size equals the
threshold (2).  The claim says the loop returns once the size reaches the
threshold; in fact Selection still performs an expiration check there and
moves an expired group out before returning. -/
theorem selection_reach_threshold_counterexample :
    (⟨[⟨0, [1], 0, 10, GroupState.Active⟩, ⟨1, [2], 0, 20, GroupState.Active⟩],
          2, 2, []⟩ : GroupRegistry).activeGroupList.length =
        (⟨[⟨0, [1], 0, 10, GroupState.Active⟩, ⟨1, [2], 0, 20, GroupState.Active⟩],
          2, 2, []⟩ : GroupRegistry).activeGroupsThreshold ∧
      (selectGroup 1000 (fun _ => 0) 0
          (⟨[⟨0, [1], 0, 10, GroupState.Active⟩, ⟨1, [2], 0, 20, GroupState.Active⟩],
            2, 2, []⟩ : GroupRegistry)).2.expiredGroupList ≠ [] := by
  exact ⟨rfl, by decide⟩

/-- C2 counterexample: group `{1,2,3}` with member 3 already inactive;
observer 1 marks 3 as disqualified and flushes.  The claim says 3 is then
in `disqualifiedMembers`; in fact the flush only considers operating
members, and 3 — being inactive — is not operating, so it is skipped. -/
theorem disqualify_already_inactive_counterexample :
    3 ∈ (⟨[1, 2, 3], [3], []⟩ : Group).inactiveMembers ∧
      3 ∉ (((NewDisqualifiedMemberFilter 1
          (⟨[1, 2, 3], [3], []⟩ : Group)).MarkMemberAsDisqualified 3
            ).FlushDisqualifiedMembers).disqualifiedMembers := by
  decide

/-- C2 (amended): if member `m` is already in the Group's `inactiveMembers`
(and not yet disqualified), then marking `m` via `MarkMemberAsDisqualified`
and flushing leaves `disqualifiedMembers` without `m`:
`FlushDisqualifiedMembers` iterates only over operating members, and an
inactive member is not operating, so no member enters both fault sets by a
disqualification that arrives after the member was marked inactive. -/
theorem flushDisqualified_skips_inactive (mf : DisqualifiedMemberFilter)
    (m : MemberIndex) (h1 : m ∈ mf.group.inactiveMembers)
    (h2 : m ∉ mf.group.disqualifiedMembers) :
    m ∉ mf.FlushDisqualifiedMembers.disqualifiedMembers := by
  rw [DisqualifiedMemberFilter.FlushDisqualifiedMembers,
    DisqualifiedMemberFilter.mem_flushLoopD]
  rintro (hd | ⟨hop, _⟩)
  · exact h2 hd
  · exact ((Group.mem_operating _ _).mp hop).2.1 h1

/-- C2 witness: the amended statement at the counterexample's input. -/
theorem flushDisqualified_skips_inactive_witness :
    3 ∉ (DisqualifiedMemberFilter.FlushDisqualifiedMembers
        ⟨1, ⟨[1, 2, 3], [3], []⟩, [3]⟩).disqualifiedMembers :=
  flushDisqualified_skips_inactive ⟨1, ⟨[1, 2, 3], [3], []⟩, [3]⟩ 3
    (by decide) (by decide)

/-- C6: `IsSenderAccepted(id)` returns true iff `id` is in `members` and in
neither `inactiveMembers` nor `disqualifiedMembers`, i.e. iff `id` is an
operating member; for an `id` never in `members` it returns false.  (It is
a pure total function of the Group's current state: it raises no error and
mutates nothing.) -/
theorem isSenderAccepted_iff_operating (g : Group) (id : MemberIndex) :
    (g.IsSenderAccepted id = true ↔ id ∈ g.OperatingMemberIDs) ∧
      (id ∉ g.members → g.IsSenderAccepted id = false) := by
  constructor
  · rw [Group.mem_operating]
    simp [Group.IsSenderAccepted, and_assoc]
  · intro h
    simp [Group.IsSenderAccepted, h]

/-- C6 witness: an id never in `members` is rejected. -/
theorem isSenderAccepted_iff_operating_witness :
    Group.IsSenderAccepted ⟨[1, 2, 3], [], []⟩ 7 = false :=
  (isSenderAccepted_iff_operating ⟨[1, 2, 3], [], []⟩ 7).2 (by decide)

theorem InactiveMemberFilter.markAll_spec (mf : InactiveMemberFilter)
    (ids : List MemberIndex) :
    (mf.markAll ids).selfMemberID = mf.selfMemberID ∧
      (mf.markAll ids).group = mf.group ∧
      (mf.markAll ids).phaseActiveMembers = mf.phaseActiveMembers ++ ids := by
  induction ids generalizing mf with
  | nil => simp [InactiveMemberFilter.markAll]
  | cons i rest ih =>
    simp only [InactiveMemberFilter.markAll, List.foldl_cons]
    obtain ⟨h1, h2, h3⟩ := ih (mf.MarkMemberAsActive i)
    refine ⟨h1, h2, ?_⟩
    have h3' : (List.foldl InactiveMemberFilter.MarkMemberAsActive
        (mf.MarkMemberAsActive i) rest).phaseActiveMembers =
        (mf.MarkMemberAsActive i).phaseActiveMembers ++ rest := h3
    rw [h3']
    simp [InactiveMemberFilter.MarkMemberAsActive]

theorem DisqualifiedMemberFilter.markAllD_spec (mf : DisqualifiedMemberFilter)
    (ids : List MemberIndex) :
    (mf.markAll ids).selfMemberID = mf.selfMemberID ∧
      (mf.markAll ids).group = mf.group ∧
      (mf.markAll ids).phaseDisqualifiedMembers =
        mf.phaseDisqualifiedMembers ++ ids := by
  induction ids generalizing mf with
  | nil => simp [DisqualifiedMemberFilter.markAll]
  | cons i rest ih =>
    simp only [DisqualifiedMemberFilter.markAll, List.foldl_cons]
    obtain ⟨h1, h2, h3⟩ := ih (mf.MarkMemberAsDisqualified i)
    refine ⟨h1, h2, ?_⟩
    have h3' : (List.foldl DisqualifiedMemberFilter.MarkMemberAsDisqualified
        (mf.MarkMemberAsDisqualified i) rest).phaseDisqualifiedMembers =
        (mf.MarkMemberAsDisqualified i).phaseDisqualifiedMembers ++ rest := h3
    rw [h3']
    simp [DisqualifiedMemberFilter.MarkMemberAsDisqualified]

/-- C7: flushing an `InactiveMemberFilter` constructed with
`selfMemberID = M` and zero `MarkMemberAsActive` calls never adds `M` to the
Group's `inactiveMembers`, and flushing a `DisqualifiedMemberFilter`
constructed with `selfMemberID = M`, after any sequence of
`MarkMemberAsDisqualified` calls (marks of `M` itself included), never adds
`M` to the Group's `disqualifiedMembers`: `M` is in the post-flush fault set
iff it was already there before the flush. -/
theorem self_exemption (g : Group) (M : MemberIndex) (ms : List MemberIndex) :
    (M ∈ (NewInactiveMemberFilter M g).FlushInactiveMembers.inactiveMembers ↔
        M ∈ g.inactiveMembers) ∧
      (M ∈ ((NewDisqualifiedMemberFilter M g).markAll
          ms).FlushDisqualifiedMembers.disqualifiedMembers ↔
        M ∈ g.disqualifiedMembers) := by
  constructor
  · rw [InactiveMemberFilter.FlushInactiveMembers,
      InactiveMemberFilter.mem_flushLoop,
      InactiveMemberFilter.isActive_eq_false]
    simp [NewInactiveMemberFilter]
  · have hs := DisqualifiedMemberFilter.markAllD_spec
      (NewDisqualifiedMemberFilter M g) ms
    rw [DisqualifiedMemberFilter.FlushDisqualifiedMembers,
      DisqualifiedMemberFilter.mem_flushLoopD,
      DisqualifiedMemberFilter.isDisqualified_eq_true, hs.1, hs.2.1]
    simp [NewDisqualifiedMemberFilter]

theorem Group.markInactive_length (g : Group) (i : MemberIndex) :
    g.inactiveMembers.length ≤ (g.MarkMemberAsInactive i).inactiveMembers.length := by
  unfold Group.MarkMemberAsInactive
  split
  · exact Nat.le_refl _
  · simp

theorem Group.markDisqualified_length (g : Group) (i : MemberIndex) :
    g.disqualifiedMembers.length ≤
      (g.MarkMemberAsDisqualified i).disqualifiedMembers.length := by
  unfold Group.MarkMemberAsDisqualified
  split
  · exact Nat.le_refl _
  · simp

theorem InactiveMemberFilter.flushLoop_inactive_length
    (mf : InactiveMemberFilter) (ops : List MemberIndex) (g : Group) :
    g.inactiveMembers.length ≤ (mf.flushLoop ops g).inactiveMembers.length := by
  induction ops generalizing g with
  | nil => exact Nat.le_refl _
  | cons id rest ih =>
    simp only [InactiveMemberFilter.flushLoop]
    refine Nat.le_trans ?_ (ih _)
    split
    · exact Group.markInactive_length g id
    · exact Nat.le_refl _

theorem DisqualifiedMemberFilter.flushLoop_disqualified_length
    (mf : DisqualifiedMemberFilter) (ops : List MemberIndex) (g : Group) :
    g.disqualifiedMembers.length ≤
      (mf.flushLoop ops g).disqualifiedMembers.length := by
  induction ops generalizing g with
  | nil => exact Nat.le_refl _
  | cons id rest ih =>
    simp only [DisqualifiedMemberFilter.flushLoop]
    refine Nat.le_trans ?_ (ih _)
    split
    · exact Group.markDisqualified_length g id
    · exact Nat.le_refl _

theorem FilterOp.apply_mono (g : Group) (op : FilterOp) :
    (∀ x ∈ g.inactiveMembers, x ∈ (FilterOp.apply g op).inactiveMembers) ∧
      (∀ x ∈ g.disqualifiedMembers,
        x ∈ (FilterOp.apply g op).disqualifiedMembers) ∧
      g.inactiveMembers.length ≤ (FilterOp.apply g op).inactiveMembers.length ∧
      g.disqualifiedMembers.length ≤
        (FilterOp.apply g op).disqualifiedMembers.length := by
  cases op with
  | flushInactive s ms =>
    refine ⟨?_, ?_, ?_, ?_⟩
    · intro x hx
      exact (InactiveMemberFilter.mem_flushLoop ⟨s, g, ms⟩ _ _ x).mpr (Or.inl hx)
    · intro x hx
      rw [FilterOp.apply, InactiveMemberFilter.FlushInactiveMembers,
        InactiveMemberFilter.flushLoop_disqualified]
      exact hx
    · exact InactiveMemberFilter.flushLoop_inactive_length ⟨s, g, ms⟩ _ _
    · rw [FilterOp.apply, InactiveMemberFilter.FlushInactiveMembers,
        InactiveMemberFilter.flushLoop_disqualified]
  | flushDisqualified s ms =>
    refine ⟨?_, ?_, ?_, ?_⟩
    · intro x hx
      rw [FilterOp.apply, DisqualifiedMemberFilter.FlushDisqualifiedMembers,
        DisqualifiedMemberFilter.flushLoop_inactive]
      exact hx
    · intro x hx
      exact (DisqualifiedMemberFilter.mem_flushLoopD ⟨s, g, ms⟩ _ _ x).mpr
        (Or.inl hx)
    · rw [FilterOp.apply, DisqualifiedMemberFilter.FlushDisqualifiedMembers,
        DisqualifiedMemberFilter.flushLoop_inactive]
    · exact DisqualifiedMemberFilter.flushLoop_disqualified_length ⟨s, g, ms⟩ _ _

/-- C8: across any sequence of `FlushInactiveMembers` and
`FlushDisqualifiedMembers` calls within one run, the Group's
`inactiveMembers` and `disqualifiedMembers` only gain members — no flush
removes a member from either fault set — and their sizes are
non-decreasing.  (Instantiating the starting Group at any intermediate
point of a run gives monotonicity between any two successive flushes.) -/
theorem fault_sets_monotone (g : Group) (ops : List FilterOp) :
    (∀ x ∈ g.inactiveMembers, x ∈ (runFlushes g ops).inactiveMembers) ∧
      (∀ x ∈ g.disqualifiedMembers,
        x ∈ (runFlushes g ops).disqualifiedMembers) ∧
      g.inactiveMembers.length ≤ (runFlushes g ops).inactiveMembers.length ∧
      g.disqualifiedMembers.length ≤
        (runFlushes g ops).disqualifiedMembers.length := by
  induction ops generalizing g with
  | nil =>
    exact ⟨fun x hx => hx, fun x hx => hx, Nat.le_refl _, Nat.le_refl _⟩
  | cons op rest ih =>
    have hstep := FilterOp.apply_mono g op
    have hrest := ih (FilterOp.apply g op)
    refine ⟨?_, ?_, ?_, ?_⟩
    · exact fun x hx => hrest.1 x (hstep.1 x hx)
    · exact fun x hx => hrest.2.1 x (hstep.2.1 x hx)
    · exact Nat.le_trans hstep.2.2.1 hrest.2.2.1
    · exact Nat.le_trans hstep.2.2.2 hrest.2.2.2

/-- C8 witness: a member already inactive stays inactive across a run of
two flushes. -/
theorem fault_sets_monotone_witness :
    2 ∈ (runFlushes ⟨[1, 2, 3], [2], [3]⟩
        [FilterOp.flushInactive 1 [], FilterOp.flushDisqualified 1 [2]]
          ).inactiveMembers :=
  (fault_sets_monotone ⟨[1, 2, 3], [2], [3]⟩
      [FilterOp.flushInactive 1 [], FilterOp.flushDisqualified 1 [2]]).1 2
    (by decide)

theorem contains_congr (l₁ l₂ : List MemberIndex)
    (h : ∀ x, x ∈ l₁ ↔ x ∈ l₂) (x : MemberIndex) :
    l₁.contains x = l₂.contains x := by
  by_cases hx : x ∈ l₁
  · have e1 : l₁.contains x = true := List.elem_iff.mpr hx
    have e2 : l₂.contains x = true := List.elem_iff.mpr ((h x).mp hx)
    rw [e1, e2]
  · have h2 : x ∉ l₂ := fun hh => hx ((h x).mpr hh)
    have e1 : l₁.contains x = false := by simpa using hx
    have e2 : l₂.contains x = false := by simpa using h2
    rw [e1, e2]

theorem InactiveMemberFilter.flushLoop_congr
    (mf₁ mf₂ : InactiveMemberFilter)
    (hs : mf₁.selfMemberID = mf₂.selfMemberID)
    (hm : ∀ x, mf₁.phaseActiveMembers.contains x =
      mf₂.phaseActiveMembers.contains x) :
    ∀ ops g, mf₁.flushLoop ops g = mf₂.flushLoop ops g := by
  have hact : ∀ x, mf₁.isActive x = mf₂.isActive x := by
    intro x
    unfold InactiveMemberFilter.isActive
    rw [hs, hm]
  intro ops
  induction ops with
  | nil => intro g; rfl
  | cons id rest ih =>
    intro g
    simp only [InactiveMemberFilter.flushLoop, hact id]
    exact ih _

theorem DisqualifiedMemberFilter.flushLoopD_congr
    (mf₁ mf₂ : DisqualifiedMemberFilter)
    (hs : mf₁.selfMemberID = mf₂.selfMemberID)
    (hm : ∀ x, mf₁.phaseDisqualifiedMembers.contains x =
      mf₂.phaseDisqualifiedMembers.contains x) :
    ∀ ops g, mf₁.flushLoop ops g = mf₂.flushLoop ops g := by
  have hact : ∀ x, mf₁.isDisqualified x = mf₂.isDisqualified x := by
    intro x
    unfold DisqualifiedMemberFilter.isDisqualified
    rw [hs, hm]
  intro ops
  induction ops with
  | nil => intro g; rfl
  | cons id rest ih =>
    intro g
    simp only [DisqualifiedMemberFilter.flushLoop, hact id]
    exact ih _

theorem InactiveMemberFilter.flush_congr (mf₁ mf₂ : InactiveMemberFilter)
    (hs : mf₁.selfMemberID = mf₂.selfMemberID) (hg : mf₁.group = mf₂.group)
    (hm : ∀ x, mf₁.phaseActiveMembers.contains x =
      mf₂.phaseActiveMembers.contains x) :
    mf₁.FlushInactiveMembers = mf₂.FlushInactiveMembers := by
  unfold InactiveMemberFilter.FlushInactiveMembers
  rw [hg]
  exact InactiveMemberFilter.flushLoop_congr mf₁ mf₂ hs hm _ _

theorem DisqualifiedMemberFilter.flushD_congr (mf₁ mf₂ : DisqualifiedMemberFilter)
    (hs : mf₁.selfMemberID = mf₂.selfMemberID) (hg : mf₁.group = mf₂.group)
    (hm : ∀ x, mf₁.phaseDisqualifiedMembers.contains x =
      mf₂.phaseDisqualifiedMembers.contains x) :
    mf₁.FlushDisqualifiedMembers = mf₂.FlushDisqualifiedMembers := by
  unfold DisqualifiedMemberFilter.FlushDisqualifiedMembers
  rw [hg]
  exact DisqualifiedMemberFilter.flushLoopD_congr mf₁ mf₂ hs hm _ _

/-- C9: the mark operations are idempotent with respect to observable
behaviour: for any filter, any index `id` (indices outside the group
included — a mark is a total operation that never fails), and any further
marks before the flush, marking `id` twice yields the same flush outcome
(the same resulting Group) as marking it once. -/
theorem mark_idempotent (mfI : InactiveMemberFilter)
    (mfD : DisqualifiedMemberFilter) (id : MemberIndex)
    (restI restD : List MemberIndex) :
    (((mfI.MarkMemberAsActive id).MarkMemberAsActive id).markAll
          restI).FlushInactiveMembers =
        ((mfI.MarkMemberAsActive id).markAll restI).FlushInactiveMembers ∧
      (((mfD.MarkMemberAsDisqualified id).MarkMemberAsDisqualified id).markAll
          restD).FlushDisqualifiedMembers =
        ((mfD.MarkMemberAsDisqualified id).markAll
          restD).FlushDisqualifiedMembers := by
  constructor
  · have ha := InactiveMemberFilter.markAll_spec
      ((mfI.MarkMemberAsActive id).MarkMemberAsActive id) restI
    have hb := InactiveMemberFilter.markAll_spec
      (mfI.MarkMemberAsActive id) restI
    refine InactiveMemberFilter.flush_congr _ _ ?_ ?_ ?_
    · rw [ha.1, hb.1]
      rfl
    · rw [ha.2.1, hb.2.1]
      rfl
    · intro x
      rw [ha.2.2, hb.2.2]
      refine contains_congr _ _ (fun y => ?_) x
      simp [InactiveMemberFilter.MarkMemberAsActive]
  · have ha := DisqualifiedMemberFilter.markAllD_spec
      ((mfD.MarkMemberAsDisqualified id).MarkMemberAsDisqualified id) restD
    have hb := DisqualifiedMemberFilter.markAllD_spec
      (mfD.MarkMemberAsDisqualified id) restD
    refine DisqualifiedMemberFilter.flushD_congr _ _ ?_ ?_ ?_
    · rw [ha.1, hb.1]
      rfl
    · rw [ha.2.1, hb.2.1]
      rfl
    · intro x
      rw [ha.2.2, hb.2.2]
      refine contains_congr _ _ (fun y => ?_) x
      simp [DisqualifiedMemberFilter.MarkMemberAsDisqualified]

/-- C10: `MarkMemberAsActive` and `MarkMemberAsDisqualified` write only the
calling filter's phase-local observation list: the Group they reference
(its `members` and both fault sets) is untouched, so no mark is observable
through the Group or through `IsSenderAccepted` before a flush; the Group's
fault sets are written exclusively by the flush operations. -/
theorem mark_frame (mfI : InactiveMemberFilter)
    (mfD : DisqualifiedMemberFilter) (id s : MemberIndex) :
    ((mfI.MarkMemberAsActive id).group = mfI.group ∧
        (mfI.MarkMemberAsActive id).selfMemberID = mfI.selfMemberID ∧
        (mfI.MarkMemberAsActive id).phaseActiveMembers =
          mfI.phaseActiveMembers ++ [id] ∧
        (mfI.MarkMemberAsActive id).group.IsSenderAccepted s =
          mfI.group.IsSenderAccepted s) ∧
      ((mfD.MarkMemberAsDisqualified id).group = mfD.group ∧
        (mfD.MarkMemberAsDisqualified id).selfMemberID = mfD.selfMemberID ∧
        (mfD.MarkMemberAsDisqualified id).phaseDisqualifiedMembers =
          mfD.phaseDisqualifiedMembers ++ [id] ∧
        (mfD.MarkMemberAsDisqualified id).group.IsSenderAccepted s =
          mfD.group.IsSenderAccepted s) :=
  ⟨⟨rfl, rfl, rfl, rfl⟩, ⟨rfl, rfl, rfl, rfl⟩⟩

end KeepCore
